import Mathlib

/-!
Verification of the repo link resolver (`packages/cli/src/commands/integration/add.ts`)
and the deployment event consumer (`printEvents`) against their specification.
The resolver and the consumer are shallowly embedded as executable Lean
functions; filesystem, network and terminal collaborators are abstracted as
explicit parameters.
-/

namespace VercelSpec

/-- Entry of the `projects` array persisted in `.vercel/repo.json`
(`RepoProjectConfig` in `add.ts`). -/
structure RepoProjectConfig where
  id : String
  name : String
  directory : String
deriving DecidableEq, Repr

/-- Modelled from the spec: `normalizePath` from `@vercel/build-utils` is not under
`src/`; per the spec it normalizes a path to the POSIX relative-path convention
used by `directory` fields, i.e. it rewrites Windows separators to forward
slashes. -/
def normalizePath (p : String) : String :=
  ⟨p.data.map fun c => if c = '\\' then '/' else c⟩

/-- Segment count used by `sortByDirectory` in `add.ts`
(`directory.split('/').length`); splitting on a one-character separator yields
one more segment than the number of separators in the string. -/
def directoryDepth (d : String) : Nat := d.data.count '/' + 1

/-- Order induced by the comparator of `sortByDirectory` in `add.ts`
(`(a, b) => bParts.length - aParts.length`): directory depth descending. -/
def depthGE (a b : RepoProjectConfig) : Prop :=
  directoryDepth b.directory ≤ directoryDepth a.directory

instance : DecidableRel depthGE := fun _ _ => Nat.decLe _ _

instance : IsTotal RepoProjectConfig depthGE :=
  ⟨fun _ _ => Nat.le_total _ _⟩

instance : IsTrans RepoProjectConfig depthGE :=
  ⟨fun _ _ _ h1 h2 => le_trans h2 h1⟩

/-- Stable sort of the projects by directory depth descending, modelling
`projects.slice().sort(sortByDirectory)`; ECMAScript `Array.prototype.sort` is
stable, so it coincides with insertion sort by the same comparator. -/
def sortByDirectory (projects : List RepoProjectConfig) : List RepoProjectConfig :=
  List.insertionSort depthGE projects

/-- Matching predicate of `findProjectsFromPath`: a `"."` directory matches any
path; otherwise the normalized path must equal the directory or start with
`directory + "/"`. -/
def dirMatches (normalizedPath : String) (project : RepoProjectConfig) : Bool :=
  if project.directory == "." then true
  else normalizedPath == project.directory
    || List.isPrefixOf (project.directory ++ "/").data normalizedPath.data

/-- The path resolver of `add.ts`. JavaScript evaluates `firstMatch.directory`
lazily inside the final `filter` callback, so when `matches` is empty the
callback never runs and the property access on `undefined` never happens; the
`Option` result makes that potential undefined-access explicit (`none` models a
thrown `TypeError`, which would occur exactly if the callback dereferenced a
missing first match). -/
def findProjectsFromPath (projects : List RepoProjectConfig) (path : String) :
    Option (List RepoProjectConfig) :=
  let normalizedPath := normalizePath path
  let matchList := (sortByDirectory projects).filter (dirMatches normalizedPath)
  let firstMatch := matchList.head?
  matchList.foldr
    (fun m acc => do
      let rest ← acc
      let f ← firstMatch
      pure (if m.directory == f.directory then m :: rest else rest))
    (some [])

/-- Absolute directory path, represented as its list of segments with the
innermost segment first, so that `join(current, "..")` is `List.tail` and the
filesystem root is `[]` (where `join(root, "..") = root` ends the traversal). -/
abbrev DirPath := List String

/-- Sequence of directories yielded by `traverseUpDirectories` in `add.ts`: the
start directory, then each parent in turn, ending at the filesystem root. -/
def traverseUpDirectories : DirPath → List DirPath
  | [] => [[]]
  | seg :: rest => (seg :: rest) :: traverseUpDirectories rest

/-- Walk of `findRepoRoot` in `add.ts`: visit each directory from `start`
upward; stop with `none` upon reaching the home directory; otherwise return the
first directory containing `.vercel/repo.json` (checked first) or `.git/config`.
Filesystem contents are abstracted by the two existence predicates
`hasRepoJson` and `hasGitConfig`. -/
def findRepoRoot (hasRepoJson hasGitConfig : DirPath → Bool) (home : DirPath) :
    DirPath → Option DirPath
  | [] =>
    if ([] : DirPath) = home then none
    else if hasRepoJson [] then some []
    else if hasGitConfig [] then some []
    else none
  | seg :: rest =>
    if (seg :: rest : DirPath) = home then none
    else if hasRepoJson (seg :: rest) then some (seg :: rest)
    else if hasGitConfig (seg :: rest) then some (seg :: rest)
    else findRepoRoot hasRepoJson hasGitConfig home rest

/-- Remote project as returned by the `/v9/projects` listing, restricted to the
fields `ensureRepoLink` uses. -/
structure Project where
  id : String
  name : String
  rootDirectory : Option String
deriving DecidableEq, Repr

/-- Value carried by one checkbox choice in `ensureRepoLink`: either an existing
remote project, or a `{newProject: true, ...}` candidate detected locally. -/
inductive Selection where
  | existing (project : Project)
  | newProject (rootDirectory name framework : String)
deriving DecidableEq, Repr

/-- Manifest persisted to `.vercel/repo.json` (`RepoProjectsConfig` in
`add.ts`). -/
structure RepoProjectsConfig where
  orgId : String
  remoteName : String
  projects : List RepoProjectConfig
deriving DecidableEq, Repr

/-- Node's `path.normalize` restricted to the already-normalized relative POSIX
paths stored in `rootDirectory` fields; its only observable effect on those is
that the empty string normalizes to `"."`. -/
def nodeNormalize (s : String) : String := if s == "" then "." else s

/-- Final linking steps of `ensureRepoLink` (`add.ts` lines 407-426): for every
selected entry flagged as new, create the remote project (replacing the entry in
the `selected` array); then build the `repoConfig` that is persisted to the
manifest file — the source builds its `projects` field from the fetched
`projects` array. `createProject` abstracts the remote project-creation
collaborator. Returns the updated selection together with the persisted
manifest. -/
def ensureRepoLinkPersist (orgId remoteName : String)
    (createProject : String → Project) (projects : List Project)
    (selected : List Selection) : List Selection × RepoProjectsConfig :=
  let selectedAfterCreate := selected.map fun sel =>
    match sel with
    | .existing p => .existing p
    | .newProject _ name _ => .existing (createProject name)
  let repoConfig : RepoProjectsConfig :=
    { orgId := orgId
      remoteName := remoteName
      projects := projects.map fun p =>
        { id := p.id
          name := p.name
          directory := nodeNormalize (p.rootDirectory.getD "") } }
  (selectedAfterCreate, repoConfig)

/-- Decoded line-delimited record from the event feed; `event` is the
discriminator field destructured by `onData`, `tag` stands for the rest of the
payload. -/
structure StreamRecord where
  event : String
  tag : Nat
deriving DecidableEq, Repr

/-- Outcome of one poll of the deployment status endpoint inside `startPoller`. -/
inductive PollResult where
  | ok (state : String)
  | notOk (status : Nat)
  | threw
deriving DecidableEq, Repr

/-- Error values that can settle the consumer: a non-2xx events response, a
non-ok poll response, or a throwing poll fetch. -/
inductive ConsumerErr where
  | eventsStatus (status : Nat)
  | pollResponse (status : Nat)
  | pollThrew
deriving DecidableEq, Repr

/-- One observable occurrence during a connected attempt, in the order the Node
event loop delivers them: a decoded record (`data` event), the stream `end`
event, a stream or readable `error` event, or the pending poll timer firing
with the given poll outcome. -/
inductive Occurrence where
  | data (r : StreamRecord)
  | streamEnd
  | streamErr
  | pollTick (res : PollResult)
deriving DecidableEq, Repr

/-- Response of one attempt's fetch of the events URL: `ok` carries the
occurrences delivered while connected, `notOk` a non-2xx status. -/
inductive FeedResponse where
  | ok (occs : List Occurrence)
  | notOk (status : Nat)
deriving DecidableEq, Repr

/-- Options of one `printEvents` invocation. `limit` models
`findOpts.limit || Number.POSITIVE_INFINITY`: `0` encodes the unbounded default
(the counter starts at 1 and is compared with `===`, so it never equals 0,
exactly as it never equals `Infinity`). `printEvent` returns the number of
output units produced for a record; `printEventCallsOnOpen` tells whether the
caller-supplied `printEvent` invokes the `callOnOpenOnce` callback it
receives. -/
structure ConsumerOpts where
  mode : String
  limit : Nat
  quiet : Bool
  printEvent : StreamRecord → Nat
  printEventCallsOnOpen : StreamRecord → Bool

/-- State of one `printEvents` invocation. `counter`, `o` and `onOpenCalled`
live outside the retry wrapper and persist across attempts; `finishCalled`,
`pollerActive` and `result` belong to the current attempt's promise.
Bookkeeping fields record observable behavior: `forwarded` lists the records
passed to `printEvent`, `onOpenCount` counts actual `onOpen()` invocations,
`scheduledDelays` the delays passed to `setTimeout`, and `erasedHistory` the
number of lines erased at each retry boundary. -/
structure ConsumerState where
  counter : Nat
  o : Nat
  onOpenCalled : Bool
  onOpenCount : Nat
  finishCalled : Bool
  pollerActive : Bool
  result : Option (Option ConsumerErr)
  forwarded : List StreamRecord
  scheduledDelays : List Nat
  erasedHistory : List Nat
deriving DecidableEq, Repr

/-- State at the start of a `printEvents` invocation. -/
def initialState : ConsumerState :=
  { counter := 0, o := 0, onOpenCalled := false, onOpenCount := 0,
    finishCalled := false, pollerActive := false, result := none,
    forwarded := [], scheduledDelays := [], erasedHistory := [] }

/-- Body of `callOnOpenOnce`: invoke `onOpen` only the first time. -/
def callOnOpenOnce (s : ConsumerState) : ConsumerState :=
  if s.onOpenCalled then s
  else { s with onOpenCalled := true, onOpenCount := s.onOpenCount + 1 }

/-- Body of `finish` in `printEvents`: a no-op when already called; otherwise
set the one-shot flag, call `callOnOpenOnce`, clear the pending poll timer and
settle the attempt's promise with `err` (`none` resolves, `some e` rejects). -/
def finish (err : Option ConsumerErr) (s : ConsumerState) : ConsumerState :=
  if s.finishCalled then s
  else
    let s' := callOnOpenOnce { s with finishCalled := true }
    { s' with pollerActive := false, result := some err }

/-- Body of `onData`: increment the counter; when it reaches the limit, end the
stream and finish; drop `build-complete` records (additionally finishing in
deploy mode); otherwise forward the record to `printEvent` and add the returned
unit count to `o`. -/
def onData (opts : ConsumerOpts) (r : StreamRecord) (s : ConsumerState) :
    ConsumerState :=
  let s1 := { s with counter := s.counter + 1 }
  if s1.counter == opts.limit then finish none s1
  else if r.event == "build-complete" then
    if opts.mode == "deploy" then finish none s1 else s1
  else
    let s2 := if opts.printEventCallsOnOpen r then callOnOpenOnce s1 else s1
    { s2 with o := s2.o + opts.printEvent r, forwarded := s2.forwarded ++ [r] }

/-- Body of `onError` for stream and readable `error` events: after `finish` it
is a no-op; otherwise it counts the logged line in `o` and calls
`callOnOpenOnce` (it does not settle the promise). -/
def onError (s : ConsumerState) : ConsumerState :=
  if s.finishCalled then s else callOnOpenOnce { s with o := s.o + 1 }

/-- The 5000 ms delay passed to `setTimeout` by `startPoller`. -/
def pollDelayMs : Nat := 5000

/-- Body of the `startPoller` timer callback (deploy mode): a cancelled timer
never fires; a non-ok poll response or a thrown poll fetch ends the stream and
finishes with that error; state `READY` ends the stream and finishes
successfully; any other state reschedules the poller. -/
def onPollTick (res : PollResult) (s : ConsumerState) : ConsumerState :=
  if !s.pollerActive then s
  else
    match res with
    | .ok st =>
      if st == "READY" then finish none s
      else { s with scheduledDelays := s.scheduledDelays ++ [pollDelayMs] }
    | .notOk status => finish (some (.pollResponse status)) s
    | .threw => finish (some .pollThrew) s

/-- Dispatch of one occurrence to the registered handler. -/
def consumerStep (opts : ConsumerOpts) (occ : Occurrence) (s : ConsumerState) :
    ConsumerState :=
  match occ with
  | .data r => onData opts r s
  | .streamEnd => finish none s
  | .streamErr => onError s
  | .pollTick res => onPollTick res s

/-- Run the handlers over the occurrences of one connected attempt; once the
attempt's promise is settled (every finishing path has called `stream.end()`)
no further occurrence is delivered. -/
def runOccs (opts : ConsumerOpts) : List Occurrence → ConsumerState → ConsumerState
  | [], s => s
  | occ :: occs, s =>
    if s.result.isSome then s
    else runOccs opts occs (consumerStep opts occ s)

/-- Outcome of one attempt of the retry wrapper's callback. -/
inductive AttemptOutcome where
  | resolved
  | rejected (e : ConsumerErr)
  | bailed (e : ConsumerErr)
  | hung
deriving DecidableEq, Repr

/-- Fresh per-attempt promise state installed by the `retry` callback on a
successful connection: a new unsettled promise, a freshly scheduled poller in
deploy mode; `counter`, `o` and the `onOpen` bookkeeping persist. -/
def attemptStart (opts : ConsumerOpts) (s : ConsumerState) : ConsumerState :=
  { s with
    finishCalled := false
    pollerActive := opts.mode == "deploy"
    result := none
    scheduledDelays :=
      s.scheduledDelays ++
        (if opts.mode == "deploy" then [pollDelayMs] else []) }

/-- One attempt of the `retry` callback: a non-2xx response calls
`callOnOpenOnce` and then `bail`s for status < 500 or throws for status ≥ 500;
an ok response installs fresh per-attempt promise state (starting the poller in
deploy mode) and processes the delivered occurrences. `hung` models a promise
that never settles because the supplied occurrence trace ended first. -/
def runAttempt (opts : ConsumerOpts) (resp : FeedResponse) (s : ConsumerState) :
    ConsumerState × AttemptOutcome :=
  match resp with
  | .notOk status =>
    let s' := callOnOpenOnce s
    if status < 500 then (s', .bailed (.eventsStatus status))
    else (s', .rejected (.eventsStatus status))
  | .ok occs =>
    let t := runOccs opts occs (attemptStart opts s)
    match t.result with
    | some none => (t, .resolved)
    | some (some e) => (t, .rejected e)
    | none => (t, .hung)

/-- Body of `onRetry`: given `quiet` and the counter `o`, return the number of
terminal lines erased (`o + 1` counts the in-progress line) together with the
new value of `o`; erasure happens only when not quiet and `o` is nonzero. -/
def onRetryStep (quiet : Bool) (o : Nat) : Nat × Nat :=
  if !quiet && o != 0 then (o + 1, 0) else (0, o)

/-- Apply `onRetry` to the invocation state, recording the erasure. -/
def applyOnRetry (quiet : Bool) (s : ConsumerState) : ConsumerState :=
  let p := onRetryStep quiet s.o
  { s with o := p.2, erasedHistory := s.erasedHistory ++ [p.1] }

/-- Result of a whole `printEvents` invocation: the final bookkeeping state, the
settlement of the returned promise (`none` when it never settles because the
supplied response trace ran out) and the number of attempts made. -/
structure RunResult where
  state : ConsumerState
  overall : Option (Option ConsumerErr)
  attemptsMade : Nat
deriving DecidableEq, Repr

/-- Retry loop of `async-retry` with `retries: 4`: a resolved attempt resolves
the whole call; `bail` rejects it immediately; a rejected attempt runs `onRetry`
and tries again while retries remain, and once the budget is exhausted rejects
the whole call with the last error. -/
def retryLoop (opts : ConsumerOpts) (responses : List FeedResponse)
    (retriesLeft : Nat) (s : ConsumerState) (made : Nat) : RunResult :=
  match responses with
  | [] => ⟨s, none, made⟩
  | resp :: rest =>
    let p := runAttempt opts resp s
    match p.2 with
    | .resolved => ⟨p.1, some none, made + 1⟩
    | .bailed e => ⟨p.1, some (some e), made + 1⟩
    | .hung => ⟨p.1, none, made + 1⟩
    | .rejected e =>
      match retriesLeft with
      | 0 => ⟨p.1, some (some e), made + 1⟩
      | rl + 1 => retryLoop opts rest rl (applyOnRetry opts.quiet p.1) (made + 1)
termination_by structural responses

/-- Whole `printEvents` invocation, driven by the list of per-attempt feed
responses supplied by the world. -/
def printEventsModel (opts : ConsumerOpts) (responses : List FeedResponse) :
    RunResult :=
  retryLoop opts responses 4 initialState 0

/-- Matching projects of a query path, before the tie-filtering step. -/
def matchesOf (projects : List RepoProjectConfig) (path : String) :
    List RepoProjectConfig :=
  (sortByDirectory projects).filter (dirMatches (normalizePath path))

/-- Project link with no root-directory restriction, used as concrete test
data. -/
def dotProject : RepoProjectConfig := ⟨"prj_dot", "root-app", "."⟩

/-- Project link rooted at the one-segment directory `a`, used as concrete test
data. -/
def aProject : RepoProjectConfig := ⟨"prj_a", "a-app", "a"⟩

/-- Existing remote project fetched from the listing, used as concrete test
data. -/
def fetchedWebProject : Project := ⟨"prj_1", "web", some "apps/web"⟩

/-- Selection entry flagged as new, used as concrete test data. -/
def docsSelection : Selection := Selection.newProject "apps/docs" "docs" "nextjs"

/-- Stub of the project-creation collaborator, used as concrete test data. -/
def createDocsStub : String → Project := fun name => ⟨"prj_new", name, some "apps/docs"⟩

/-- Consumer options outside deploy mode with the given limit, each forwarded
record producing one output unit. -/
def logsOpts (limit : Nat) : ConsumerOpts :=
  ⟨"logs", limit, false, fun _ => 1, fun _ => false⟩

/-- Consumer options in deploy mode, unbounded, not quiet. -/
def deployOpts : ConsumerOpts :=
  ⟨"deploy", 0, false, fun _ => 1, fun _ => false⟩

/-- Consumer options in deploy mode with `quiet` set. -/
def quietDeployOpts : ConsumerOpts :=
  ⟨"deploy", 0, true, fun _ => 1, fun _ => false⟩

/-- Normal log record, used as concrete test data. -/
def stdoutRecord (n : Nat) : StreamRecord := ⟨"stdout", n⟩

/-- Stream-completion record, used as concrete test data. -/
def buildCompleteRecord : StreamRecord := ⟨"build-complete", 0⟩

@[simp] lemma callOnOpenOnce_counter (s : ConsumerState) :
    (callOnOpenOnce s).counter = s.counter := by
  unfold callOnOpenOnce; split <;> rfl

@[simp] lemma callOnOpenOnce_o (s : ConsumerState) :
    (callOnOpenOnce s).o = s.o := by
  unfold callOnOpenOnce; split <;> rfl

@[simp] lemma callOnOpenOnce_finishCalled (s : ConsumerState) :
    (callOnOpenOnce s).finishCalled = s.finishCalled := by
  unfold callOnOpenOnce; split <;> rfl

@[simp] lemma callOnOpenOnce_pollerActive (s : ConsumerState) :
    (callOnOpenOnce s).pollerActive = s.pollerActive := by
  unfold callOnOpenOnce; split <;> rfl

@[simp] lemma callOnOpenOnce_result (s : ConsumerState) :
    (callOnOpenOnce s).result = s.result := by
  unfold callOnOpenOnce; split <;> rfl

@[simp] lemma callOnOpenOnce_forwarded (s : ConsumerState) :
    (callOnOpenOnce s).forwarded = s.forwarded := by
  unfold callOnOpenOnce; split <;> rfl

@[simp] lemma callOnOpenOnce_scheduledDelays (s : ConsumerState) :
    (callOnOpenOnce s).scheduledDelays = s.scheduledDelays := by
  unfold callOnOpenOnce; split <;> rfl

@[simp] lemma callOnOpenOnce_erasedHistory (s : ConsumerState) :
    (callOnOpenOnce s).erasedHistory = s.erasedHistory := by
  unfold callOnOpenOnce; split <;> rfl

@[simp] lemma finish_counter (e : Option ConsumerErr) (s : ConsumerState) :
    (finish e s).counter = s.counter := by
  unfold finish; split <;> simp

@[simp] lemma finish_o (e : Option ConsumerErr) (s : ConsumerState) :
    (finish e s).o = s.o := by
  unfold finish; split <;> simp

@[simp] lemma finish_forwarded (e : Option ConsumerErr) (s : ConsumerState) :
    (finish e s).forwarded = s.forwarded := by
  unfold finish; split <;> simp

@[simp] lemma finish_scheduledDelays (e : Option ConsumerErr) (s : ConsumerState) :
    (finish e s).scheduledDelays = s.scheduledDelays := by
  unfold finish; split <;> simp

@[simp] lemma finish_erasedHistory (e : Option ConsumerErr) (s : ConsumerState) :
    (finish e s).erasedHistory = s.erasedHistory := by
  unfold finish; split <;> simp

@[simp] lemma finish_finishCalled (e : Option ConsumerErr) (s : ConsumerState) :
    (finish e s).finishCalled = true := by
  unfold finish; split
  · assumption
  · simp

lemma finish_result_of_fresh (e : Option ConsumerErr) (s : ConsumerState)
    (h : s.finishCalled = false) : (finish e s).result = some e := by
  unfold finish; rw [if_neg (by simp [h])]

lemma finish_pollerActive_of_fresh (e : Option ConsumerErr) (s : ConsumerState)
    (h : s.finishCalled = false) : (finish e s).pollerActive = false := by
  unfold finish; rw [if_neg (by simp [h])]

lemma finish_onOpenCalled_of_fresh (e : Option ConsumerErr) (s : ConsumerState)
    (h : s.finishCalled = false) : (finish e s).onOpenCalled = true := by
  unfold finish callOnOpenOnce
  rw [if_neg (by simp [h])]
  split <;> simp_all

lemma finish_of_called (e : Option ConsumerErr) (s : ConsumerState)
    (h : s.finishCalled = true) : finish e s = s := by
  unfold finish; rw [if_pos h]

lemma runOccs_cons (opts : ConsumerOpts) (occ : Occurrence)
    (occs : List Occurrence) (s : ConsumerState) :
    runOccs opts (occ :: occs) s =
      if s.result.isSome then s else runOccs opts occs (consumerStep opts occ s) :=
  rfl

lemma runOccs_stop (opts : ConsumerOpts) (occs : List Occurrence)
    (s : ConsumerState) (h : s.result.isSome = true) : runOccs opts occs s = s := by
  cases occs with
  | nil => rfl
  | cons occ occs => rw [runOccs_cons, if_pos h]

lemma runOccs_append (opts : ConsumerOpts) (xs ys : List Occurrence)
    (s : ConsumerState) :
    runOccs opts (xs ++ ys) s = runOccs opts ys (runOccs opts xs s) := by
  induction xs generalizing s with
  | nil => rfl
  | cons x xs ih =>
    by_cases h : s.result.isSome
    · rw [runOccs_stop _ _ _ h, runOccs_stop _ _ _ h, runOccs_stop _ _ _ h]
    · rw [List.cons_append, runOccs_cons, runOccs_cons, if_neg h, if_neg h, ih]

/-- Invariant maintained by every handler: `onOpenCount` reflects the one-shot
`onOpenCalled` flag, and every scheduled delay is the fixed 5000 ms. -/
def StateInv (s : ConsumerState) : Prop :=
  s.onOpenCount = (if s.onOpenCalled then 1 else 0) ∧
    ∀ d ∈ s.scheduledDelays, d = pollDelayMs

lemma stateInv_initial : StateInv initialState := by
  constructor <;> simp [initialState]

lemma stateInv_callOnOpenOnce {s : ConsumerState} (h : StateInv s) :
    StateInv (callOnOpenOnce s) := by
  obtain ⟨h1, h2⟩ := h
  unfold callOnOpenOnce
  split
  · exact ⟨h1, h2⟩
  · refine ⟨?_, h2⟩
    simp_all

lemma stateInv_finish {s : ConsumerState} (e : Option ConsumerErr)
    (h : StateInv s) : StateInv (finish e s) := by
  unfold finish
  split
  · exact h
  · have h' : StateInv { s with finishCalled := true } := h
    obtain ⟨h1, h2⟩ := stateInv_callOnOpenOnce h'
    exact ⟨h1, h2⟩

lemma stateInv_onData {s : ConsumerState} (opts : ConsumerOpts)
    (r : StreamRecord) (h : StateInv s) : StateInv (onData opts r s) := by
  have h1 : StateInv { s with counter := s.counter + 1 } := h
  unfold onData
  dsimp only
  split
  · exact stateInv_finish _ h1
  · split
    · split
      · exact stateInv_finish _ h1
      · exact h1
    · split
      · obtain ⟨ha, hb⟩ := stateInv_callOnOpenOnce h1
        exact ⟨ha, hb⟩
      · exact h1

lemma stateInv_onError {s : ConsumerState} (h : StateInv s) :
    StateInv (onError s) := by
  unfold onError
  split
  · exact h
  · exact stateInv_callOnOpenOnce h

lemma stateInv_onPollTick {s : ConsumerState} (res : PollResult)
    (h : StateInv s) : StateInv (onPollTick res s) := by
  unfold onPollTick
  split
  · exact h
  · obtain ⟨h1, h2⟩ := h
    cases res with
    | ok st =>
      dsimp only
      split
      · exact stateInv_finish _ ⟨h1, h2⟩
      · refine ⟨h1, ?_⟩
        intro d hd
        rcases List.mem_append.mp hd with hd | hd
        · exact h2 d hd
        · simpa using hd
    | notOk status => exact stateInv_finish _ ⟨h1, h2⟩
    | threw => exact stateInv_finish _ ⟨h1, h2⟩

lemma stateInv_consumerStep {s : ConsumerState} (opts : ConsumerOpts)
    (occ : Occurrence) (h : StateInv s) : StateInv (consumerStep opts occ s) := by
  cases occ with
  | data r => exact stateInv_onData opts r h
  | streamEnd => exact stateInv_finish _ h
  | streamErr => exact stateInv_onError h
  | pollTick res => exact stateInv_onPollTick res h

lemma stateInv_runOccs {s : ConsumerState} (opts : ConsumerOpts)
    (occs : List Occurrence) (h : StateInv s) : StateInv (runOccs opts occs s) := by
  induction occs generalizing s with
  | nil => exact h
  | cons occ occs ih =>
    unfold runOccs
    split
    · exact h
    · exact ih (stateInv_consumerStep opts occ h)

lemma stateInv_attemptStart {s : ConsumerState} (opts : ConsumerOpts)
    (h : StateInv s) : StateInv (attemptStart opts s) := by
  obtain ⟨h1, h2⟩ := h
  refine ⟨h1, ?_⟩
  intro d hd
  unfold attemptStart at hd
  rcases List.mem_append.mp hd with hd | hd
  · exact h2 d hd
  · split at hd <;> simp_all

lemma stateInv_runAttempt {s : ConsumerState} (opts : ConsumerOpts)
    (resp : FeedResponse) (h : StateInv s) :
    StateInv (runAttempt opts resp s).1 := by
  cases resp with
  | notOk status =>
    unfold runAttempt
    dsimp only
    split <;> exact stateInv_callOnOpenOnce h
  | ok occs =>
    unfold runAttempt
    dsimp only
    have hrun := stateInv_runOccs opts occs (stateInv_attemptStart opts h)
    split <;> exact hrun

lemma stateInv_applyOnRetry {s : ConsumerState} (quiet : Bool)
    (h : StateInv s) : StateInv (applyOnRetry quiet s) := by
  obtain ⟨h1, h2⟩ := h
  exact ⟨h1, h2⟩

lemma stateInv_retryLoop (opts : ConsumerOpts) (responses : List FeedResponse) :
    ∀ (rl made : Nat) (s : ConsumerState), StateInv s →
      StateInv (retryLoop opts responses rl s made).state := by
  induction responses with
  | nil => intro rl made s h; exact h
  | cons resp rest ih =>
    intro rl made s h
    have hatt := stateInv_runAttempt opts resp h
    unfold retryLoop
    dsimp only
    split
    · exact hatt
    · exact hatt
    · exact hatt
    · split
      · exact hatt
      · exact ih _ _ _ (stateInv_applyOnRetry opts.quiet hatt)

lemma stateInv_model (opts : ConsumerOpts) (responses : List FeedResponse) :
    StateInv (printEventsModel opts responses).state :=
  stateInv_retryLoop opts responses 4 0 initialState stateInv_initial

lemma retryLoop_made_le (opts : ConsumerOpts) (responses : List FeedResponse) :
    ∀ (rl made : Nat) (s : ConsumerState),
      made ≤ (retryLoop opts responses rl s made).attemptsMade := by
  induction responses with
  | nil => intro rl made s; exact Nat.le_refl _
  | cons resp rest ih =>
    intro rl made s
    unfold retryLoop
    dsimp only
    split
    · exact Nat.le_succ _
    · exact Nat.le_succ _
    · exact Nat.le_succ _
    · split
      · exact Nat.le_succ _
      · exact Nat.le_trans (Nat.le_succ _) (ih _ _ _)

lemma retryLoop_made_succ (opts : ConsumerOpts) (resp : FeedResponse)
    (rest : List FeedResponse) (rl made : Nat) (s : ConsumerState) :
    made + 1 ≤ (retryLoop opts (resp :: rest) rl s made).attemptsMade := by
  unfold retryLoop
  dsimp only
  split
  · exact Nat.le_refl _
  · exact Nat.le_refl _
  · exact Nat.le_refl _
  · split
    · exact Nat.le_refl _
    · exact retryLoop_made_le opts rest _ _ _

lemma runAttempt_notOk_bail (opts : ConsumerOpts) (status : Nat)
    (s : ConsumerState) (h : status < 500) :
    runAttempt opts (.notOk status) s =
      (callOnOpenOnce s, .bailed (.eventsStatus status)) := by
  unfold runAttempt
  dsimp only
  rw [if_pos h]

lemma runAttempt_notOk_throw (opts : ConsumerOpts) (status : Nat)
    (s : ConsumerState) (h : ¬ status < 500) :
    runAttempt opts (.notOk status) s =
      (callOnOpenOnce s, .rejected (.eventsStatus status)) := by
  unfold runAttempt
  dsimp only
  rw [if_neg h]

lemma runAttempt_ok_resolved (opts : ConsumerOpts) (occs : List Occurrence)
    (s : ConsumerState)
    (h : (runOccs opts occs (attemptStart opts s)).result = some none) :
    runAttempt opts (.ok occs) s =
      (runOccs opts occs (attemptStart opts s), .resolved) := by
  unfold runAttempt
  dsimp only
  rw [h]

lemma runAttempt_ok_rejected (opts : ConsumerOpts) (occs : List Occurrence)
    (s : ConsumerState) (e : ConsumerErr)
    (h : (runOccs opts occs (attemptStart opts s)).result = some (some e)) :
    runAttempt opts (.ok occs) s =
      (runOccs opts occs (attemptStart opts s), .rejected e) := by
  unfold runAttempt
  dsimp only
  rw [h]

lemma retryLoop_resolved (opts : ConsumerOpts) (resp : FeedResponse)
    (rest : List FeedResponse) (rl made : Nat) (s : ConsumerState)
    (h : (runAttempt opts resp s).2 = .resolved) :
    retryLoop opts (resp :: rest) rl s made =
      ⟨(runAttempt opts resp s).1, some none, made + 1⟩ := by
  conv_lhs => unfold retryLoop
  dsimp only
  rw [h]

lemma retryLoop_bailed (opts : ConsumerOpts) (resp : FeedResponse)
    (rest : List FeedResponse) (rl made : Nat) (s : ConsumerState)
    (e : ConsumerErr) (h : (runAttempt opts resp s).2 = .bailed e) :
    retryLoop opts (resp :: rest) rl s made =
      ⟨(runAttempt opts resp s).1, some (some e), made + 1⟩ := by
  conv_lhs => unfold retryLoop
  dsimp only
  rw [h]

lemma retryLoop_rejected_budget (opts : ConsumerOpts) (resp : FeedResponse)
    (rest : List FeedResponse) (rl made : Nat) (s : ConsumerState)
    (e : ConsumerErr) (h : (runAttempt opts resp s).2 = .rejected e) :
    retryLoop opts (resp :: rest) (rl + 1) s made =
      retryLoop opts rest rl
        (applyOnRetry opts.quiet (runAttempt opts resp s).1) (made + 1) := by
  conv_lhs => unfold retryLoop
  dsimp only
  rw [h]

lemma retryLoop_rejected_exhausted (opts : ConsumerOpts) (resp : FeedResponse)
    (rest : List FeedResponse) (made : Nat) (s : ConsumerState)
    (e : ConsumerErr) (h : (runAttempt opts resp s).2 = .rejected e) :
    retryLoop opts (resp :: rest) 0 s made =
      ⟨(runAttempt opts resp s).1, some (some e), made + 1⟩ := by
  conv_lhs => unfold retryLoop
  dsimp only
  rw [h]

lemma onData_forward (opts : ConsumerOpts) (r : StreamRecord)
    (s : ConsumerState) (hcnt : s.counter + 1 ≠ opts.limit)
    (hbc : r.event ≠ "build-complete") :
    (onData opts r s).result = s.result ∧
    (onData opts r s).finishCalled = s.finishCalled ∧
    (onData opts r s).counter = s.counter + 1 ∧
    (onData opts r s).forwarded = s.forwarded ++ [r] ∧
    (onData opts r s).o = s.o + opts.printEvent r ∧
    (onData opts r s).pollerActive = s.pollerActive := by
  unfold onData
  dsimp only
  rw [if_neg (by simpa using hcnt), if_neg (by simpa using hbc)]
  by_cases hpe : opts.printEventCallsOnOpen r <;> simp [hpe]

lemma onData_limit (opts : ConsumerOpts) (r : StreamRecord) (s : ConsumerState)
    (hfin : s.finishCalled = false) (hcnt : s.counter + 1 = opts.limit) :
    (onData opts r s).result = some none ∧
    (onData opts r s).forwarded = s.forwarded ∧
    (onData opts r s).counter = s.counter + 1 ∧
    (onData opts r s).onOpenCalled = true := by
  unfold onData
  dsimp only
  rw [if_pos (by simpa using hcnt)]
  exact ⟨finish_result_of_fresh _ _ hfin, by simp, by simp,
    finish_onOpenCalled_of_fresh _ _ hfin⟩

lemma onData_bc_deploy (opts : ConsumerOpts) (r : StreamRecord)
    (s : ConsumerState) (hcnt : s.counter + 1 ≠ opts.limit)
    (hbc : r.event = "build-complete") (hmode : opts.mode = "deploy")
    (hfin : s.finishCalled = false) :
    (onData opts r s).result = some none ∧
    (onData opts r s).forwarded = s.forwarded ∧
    (onData opts r s).counter = s.counter + 1 ∧
    (onData opts r s).onOpenCalled = true := by
  unfold onData
  dsimp only
  rw [if_neg (by simpa using hcnt), if_pos (by simpa using hbc),
    if_pos (by simpa using hmode)]
  exact ⟨finish_result_of_fresh _ _ hfin, by simp, by simp,
    finish_onOpenCalled_of_fresh _ _ hfin⟩

lemma onData_bc_other (opts : ConsumerOpts) (r : StreamRecord)
    (s : ConsumerState) (hcnt : s.counter + 1 ≠ opts.limit)
    (hbc : r.event = "build-complete") (hmode : opts.mode ≠ "deploy") :
    onData opts r s = { s with counter := s.counter + 1 } := by
  unfold onData
  dsimp only
  rw [if_neg (by simpa using hcnt), if_pos (by simpa using hbc),
    if_neg (by simpa using hmode)]

lemma runOccs_normal_run (opts : ConsumerOpts) (rs : List StreamRecord) :
    ∀ s : ConsumerState, s.result = none →
      (∀ r ∈ rs, r.event ≠ "build-complete") →
      (∀ k, k < rs.length → s.counter + (k + 1) ≠ opts.limit) →
      (runOccs opts (rs.map .data) s).result = none ∧
      (runOccs opts (rs.map .data) s).finishCalled = s.finishCalled ∧
      (runOccs opts (rs.map .data) s).counter = s.counter + rs.length ∧
      (runOccs opts (rs.map .data) s).forwarded = s.forwarded ++ rs ∧
      (runOccs opts (rs.map .data) s).o = s.o + (rs.map opts.printEvent).sum := by
  induction rs with
  | nil =>
    intro s hres _ _
    simp [runOccs, hres]
  | cons r rs ih =>
    intro s hres hnorm hlim
    have hcnt : s.counter + 1 ≠ opts.limit := by
      have := hlim 0 (by simp)
      simpa using this
    have hbc : r.event ≠ "build-complete" := hnorm r (by simp)
    obtain ⟨f1, f2, f3, f4, f5, _⟩ := onData_forward opts r s hcnt hbc
    have hstep : consumerStep opts (.data r) s = onData opts r s := rfl
    rw [List.map_cons, runOccs_cons, if_neg (by simp [hres]), hstep]
    have hres' : (onData opts r s).result = none := by rw [f1, hres]
    have hlim' : ∀ k, k < rs.length →
        (onData opts r s).counter + (k + 1) ≠ opts.limit := by
      intro k hk
      rw [f3]
      have := hlim (k + 1) (by simpa using Nat.succ_lt_succ hk)
      omega
    obtain ⟨g1, g2, g3, g4, g5⟩ :=
      ih (onData opts r s) hres' (fun x hx => hnorm x (by simp [hx])) hlim'
    refine ⟨g1, by rw [g2, f2], by rw [g3, f3, List.length_cons]; omega, ?_, ?_⟩
    · rw [g4, f4, List.append_assoc]
      rfl
    · rw [g5, f5, List.map_cons, List.sum_cons]
      omega

lemma findProjectsFromPath_def (projects : List RepoProjectConfig)
    (path : String) :
    findProjectsFromPath projects path =
      (matchesOf projects path).foldr
        (fun m acc => do
          let rest ← acc
          let f ← (matchesOf projects path).head?
          pure (if m.directory == f.directory then m :: rest else rest))
        (some []) :=
  rfl

lemma foldr_tie_filter (fm : Option RepoProjectConfig) (f : RepoProjectConfig)
    (hfm : fm = some f) (l : List RepoProjectConfig) :
    l.foldr
      (fun m acc => do
        let rest ← acc
        let g ← fm
        pure (if m.directory == g.directory then m :: rest else rest))
      (some []) =
      some (l.filter fun m => m.directory == f.directory) := by
  induction l with
  | nil => rfl
  | cons x xs ih =>
    rw [List.foldr_cons, ih, hfm]
    by_cases hx : x.directory == f.directory <;>
      simp_all [List.filter_cons, Option.bind]

lemma findProjectsFromPath_empty_matches (projects : List RepoProjectConfig)
    (path : String) (h : matchesOf projects path = []) :
    findProjectsFromPath projects path = some [] := by
  rw [findProjectsFromPath_def, h]
  rfl

lemma findProjectsFromPath_cons_matches (projects : List RepoProjectConfig)
    (path : String) (f : RepoProjectConfig) (t : List RepoProjectConfig)
    (h : matchesOf projects path = f :: t) :
    findProjectsFromPath projects path =
      some ((f :: t).filter fun m => m.directory == f.directory) := by
  rw [findProjectsFromPath_def, h]
  exact foldr_tie_filter _ f rfl _

lemma mem_matchesOf {q : RepoProjectConfig} {projects : List RepoProjectConfig}
    {path : String} :
    q ∈ matchesOf projects path ↔
      q ∈ projects ∧ dirMatches (normalizePath path) q = true := by
  unfold matchesOf sortByDirectory
  rw [List.mem_filter, (List.perm_insertionSort depthGE projects).mem_iff]

lemma matchesOf_sorted (projects : List RepoProjectConfig) (path : String) :
    (matchesOf projects path).Pairwise depthGE := by
  unfold matchesOf sortByDirectory
  exact List.Pairwise.filter _ (List.sorted_insertionSort depthGE projects)

lemma findRepoRoot_eq (hrj hgc : DirPath → Bool) (home : DirPath) :
    ∀ start : DirPath,
      findRepoRoot hrj hgc home start =
        ((traverseUpDirectories start).takeWhile (fun p => !(p == home))).find?
          (fun p => hrj p || hgc p) := by
  intro start
  induction start with
  | nil =>
    unfold findRepoRoot traverseUpDirectories
    by_cases hh : ([] : DirPath) = home
    · rw [if_pos hh, List.takeWhile_cons_of_neg (by simp [hh])]
      rfl
    · have hh' : ¬ home = ([] : DirPath) := fun h => hh h.symm
      rw [if_neg hh, List.takeWhile_cons_of_pos (by simp [hh, hh'])]
      by_cases h1 : hrj []
      · rw [if_pos h1, List.find?_cons_of_pos _ (by simp [h1])]
      · by_cases h2 : hgc []
        · rw [if_neg h1, if_pos h2, List.find?_cons_of_pos _ (by simp [h1, h2])]
        · rw [if_neg h1, if_neg h2, List.find?_cons_of_neg _ (by simp [h1, h2])]
          rfl
  | cons seg rest ih =>
    unfold findRepoRoot traverseUpDirectories
    by_cases hh : (seg :: rest : DirPath) = home
    · rw [if_pos hh, List.takeWhile_cons_of_neg (by simp [hh])]
      rfl
    · have hh' : ¬ home = (seg :: rest : DirPath) := fun h => hh h.symm
      rw [if_neg hh, List.takeWhile_cons_of_pos (by simp [hh, hh'])]
      by_cases h1 : hrj (seg :: rest)
      · rw [if_pos h1, List.find?_cons_of_pos _ (by simp [h1])]
      · by_cases h2 : hgc (seg :: rest)
        · rw [if_neg h1, if_pos h2, List.find?_cons_of_pos _ (by simp [h1, h2])]
        · rw [if_neg h1, if_neg h2, List.find?_cons_of_neg _ (by simp [h1, h2]),
            ih]

/-- C10: `findProjectsFromPath` is total on its inputs: the result is always
`some` (no `TypeError` is thrown, because the dereference of the first match
happens only inside the filter callback, which never runs on an empty match
list), when nothing matches the result is the empty list, and in particular the
empty `projects` list yields `some []` rather than an error. -/
theorem findProjectsFromPath_total (projects : List RepoProjectConfig)
    (path : String) :
    (findProjectsFromPath projects path).isSome = true ∧
    (matchesOf projects path = [] → findProjectsFromPath projects path = some []) ∧
    findProjectsFromPath ([] : List RepoProjectConfig) path = some [] := by
  refine ⟨?_, fun h => findProjectsFromPath_empty_matches projects path h, ?_⟩
  · cases h : matchesOf projects path with
    | nil => rw [findProjectsFromPath_empty_matches projects path h]; rfl
    | cons f t => rw [findProjectsFromPath_cons_matches projects path f t h]; rfl
  · exact findProjectsFromPath_empty_matches [] path rfl

/-- Witness for C10 at the concrete empty input. -/
theorem findProjectsFromPath_total_witness :
    (findProjectsFromPath ([] : List RepoProjectConfig) "apps/web").isSome = true ∧
    findProjectsFromPath ([] : List RepoProjectConfig) "apps/web" = some [] :=
  ⟨(findProjectsFromPath_total [] "apps/web").1,
   (findProjectsFromPath_total [] "apps/web").2.1 rfl⟩

/-- C1 counterexample: with projects `["." , "a"]` and path `"a"` both projects
match and both directories have the same segment count, yet the code returns
only the `"."` project; the `"a"` project — a match at the maximum matching
depth — is dropped, refuting "all ties at that depth are returned". -/
theorem findProjectsFromPath_not_all_ties :
    findProjectsFromPath [dotProject, aProject] "a" = some [dotProject] ∧
    dirMatches (normalizePath "a") aProject = true ∧
    dirMatches (normalizePath "a") dotProject = true ∧
    directoryDepth aProject.directory = directoryDepth dotProject.directory ∧
    aProject ∉ [dotProject] := by
  decide

/-- C1 (amended): `findProjectsFromPath` returns exactly the group of matching
projects sharing the directory string of the first match in the stable
depth-descending order: every returned project is a matching input project of
maximal matching depth, every matching project with that same directory string
is returned, and the result is nonempty whenever any project matches. Ties at
the maximal depth with a different directory string — possible only between
`"."` and a one-segment directory — are not all returned. -/
theorem findProjectsFromPath_deepest_group (projects : List RepoProjectConfig)
    (path : String) (res : List RepoProjectConfig)
    (hres : findProjectsFromPath projects path = some res) :
    (∀ q ∈ res, q ∈ projects ∧ dirMatches (normalizePath path) q = true) ∧
    (∀ q ∈ res, ∀ q' ∈ projects, dirMatches (normalizePath path) q' = true →
      directoryDepth q'.directory ≤ directoryDepth q.directory) ∧
    (∀ q ∈ res, ∀ q' ∈ projects, dirMatches (normalizePath path) q' = true →
      q'.directory = q.directory → q' ∈ res) ∧
    ((∃ q' ∈ projects, dirMatches (normalizePath path) q' = true) → res ≠ []) := by
  cases h : matchesOf projects path with
  | nil =>
    rw [findProjectsFromPath_empty_matches projects path h] at hres
    have hresnil : res = [] := by injection hres with h'; exact h'.symm
    subst hresnil
    refine ⟨by simp, by simp, by simp, ?_⟩
    rintro ⟨q', hq', hm⟩ _
    have hmem : q' ∈ matchesOf projects path := mem_matchesOf.mpr ⟨hq', hm⟩
    rw [h] at hmem
    exact absurd hmem (List.not_mem_nil q')
  | cons f t =>
    rw [findProjectsFromPath_cons_matches projects path f t h] at hres
    have hres' : res = (f :: t).filter fun m => m.directory == f.directory := by
      injection hres with h'; exact h'.symm
    subst hres'
    have hpair := matchesOf_sorted projects path
    rw [h] at hpair
    have hmax : ∀ x ∈ f :: t,
        directoryDepth x.directory ≤ directoryDepth f.directory := by
      intro x hx
      rcases List.mem_cons.mp hx with rfl | hx
      · exact le_refl _
      · exact (List.pairwise_cons.mp hpair).1 x hx
    refine ⟨?_, ?_, ?_, ?_⟩
    · intro q hq
      have hq' : q ∈ f :: t := List.mem_of_mem_filter hq
      rw [← h] at hq'
      exact mem_matchesOf.mp hq'
    · intro q hq q' hq'mem hq'match
      have hqd : q.directory = f.directory := by
        have := (List.mem_filter.mp hq).2
        simpa using this
      have hq'in : q' ∈ f :: t := by
        rw [← h]
        exact mem_matchesOf.mpr ⟨hq'mem, hq'match⟩
      calc directoryDepth q'.directory
          ≤ directoryDepth f.directory := hmax q' hq'in
        _ = directoryDepth q.directory := by rw [hqd]
    · intro q hq q' hq'mem hq'match hdir
      have hqd : q.directory = f.directory := by
        have := (List.mem_filter.mp hq).2
        simpa using this
      have hq'in : q' ∈ f :: t := by
        rw [← h]
        exact mem_matchesOf.mpr ⟨hq'mem, hq'match⟩
      exact List.mem_filter.mpr ⟨hq'in, by simp [hdir, hqd]⟩
    · intro _ hnil
      have hf : f ∈ (f :: t).filter fun m => m.directory == f.directory :=
        List.mem_filter.mpr ⟨by simp, by simp⟩
      rw [hnil] at hf
      exact absurd hf (List.not_mem_nil f)

/-- Witness for the amended C1 at the concrete tie input. -/
theorem findProjectsFromPath_deepest_group_witness :
    dotProject ∈ [dotProject, aProject] ∧
    dirMatches (normalizePath "a") dotProject = true := by
  have h := findProjectsFromPath_deepest_group [dotProject, aProject] "a"
    [dotProject] (by decide)
  exact h.1 dotProject (by decide)

/-- C8: `findRepoRoot` returns the first ancestor of `start` (closest to
`start`, `start` included) containing `.vercel/repo.json` or `.git/config`;
the walk is cut off at the home directory, so directories from home upward are
never examined, the home directory itself is never returned even when it
contains repo markers, and `none` is returned when no visited directory
qualifies. Checking the manifest before the VCS marker never changes the
returned directory, which is why a single disjunctive marker predicate
characterizes the result. -/
theorem findRepoRoot_first_marker (hrj hgc : DirPath → Bool)
    (home start : DirPath) :
    findRepoRoot hrj hgc home start =
      ((traverseUpDirectories start).takeWhile (fun p => !(p == home))).find?
        (fun p => hrj p || hgc p) ∧
    findRepoRoot hrj hgc home start ≠ some home := by
  refine ⟨findRepoRoot_eq hrj hgc home start, ?_⟩
  intro hcontra
  rw [findRepoRoot_eq] at hcontra
  have hmem := List.mem_of_find?_eq_some hcontra
  have hpred := List.mem_takeWhile_imp hmem
  simp at hpred

/-- Witness for C8: starting at home with markers everywhere yields `none`, and
starting below home finds the closest marked ancestor (paths are segment lists,
innermost segment first, so `["sub", "proj", "u", "home"]` is
`/home/u/proj/sub`). -/
theorem findRepoRoot_first_marker_witness :
    findRepoRoot (fun _ => true) (fun _ => true) ["u", "home"] ["u", "home"]
        = none ∧
    findRepoRoot (fun _ => false) (fun p => p == ["proj", "u", "home"])
        ["u", "home"] ["sub2", "sub", "proj", "u", "home"]
        = some ["proj", "u", "home"] := by
  constructor
  · exact (findRepoRoot_first_marker (fun _ => true) (fun _ => true)
      ["u", "home"] ["u", "home"]).1.trans (by decide)
  · exact (findRepoRoot_first_marker (fun _ => false)
      (fun p => p == ["proj", "u", "home"]) ["u", "home"]
      ["sub2", "sub", "proj", "u", "home"]).1.trans (by decide)

/-- C9: at the failing input — one fetched existing project that the user
deselects, one newly detected entry that the user selects and that is created
remotely — the persisted manifest records the fetched project and omits the
created one: the final linking steps build the persisted `projects` from the
fetched array, not from the selection. -/
theorem ensureRepoLinkPersist_bug :
    (ensureRepoLinkPersist "org_1" "origin" createDocsStub [fetchedWebProject]
        [docsSelection]).2.projects = [⟨"prj_1", "web", "apps/web"⟩] ∧
    (ensureRepoLinkPersist "org_1" "origin" createDocsStub [fetchedWebProject]
        [docsSelection]).1 =
      [Selection.existing ⟨"prj_new", "docs", some "apps/docs"⟩] ∧
    (⟨"prj_new", "docs", "apps/docs"⟩ : RepoProjectConfig) ∉
      (ensureRepoLinkPersist "org_1" "origin" createDocsStub [fetchedWebProject]
        [docsSelection]).2.projects := by
  decide

lemma retryLoop_exhausts (opts : ConsumerOpts) :
    ∀ (ss : List Nat) (last made : Nat) (s : ConsumerState),
      (∀ st ∈ ss, ¬ st < 500) → ¬ last < 500 →
      (retryLoop opts ((ss ++ [last]).map FeedResponse.notOk)
          ss.length s made).overall = some (some (.eventsStatus last)) ∧
      (retryLoop opts ((ss ++ [last]).map FeedResponse.notOk)
          ss.length s made).attemptsMade = made + ss.length + 1 := by
  intro ss
  induction ss with
  | nil =>
    intro last made s _ hlast
    have hr : (runAttempt opts (.notOk last) s).2 =
        .rejected (.eventsStatus last) := by
      rw [runAttempt_notOk_throw opts last s hlast]
    simp only [List.nil_append, List.map_cons, List.map_nil, List.length_nil]
    rw [retryLoop_rejected_exhausted opts _ _ made s _ hr]
    exact ⟨rfl, by simp⟩
  | cons st ss ih =>
    intro last made s hall hlast
    have hr : (runAttempt opts (.notOk st) s).2 =
        .rejected (.eventsStatus st) := by
      rw [runAttempt_notOk_throw opts st s (hall st (by simp))]
    simp only [List.cons_append, List.map_cons, List.length_cons]
    rw [retryLoop_rejected_budget opts _ _ ss.length made s _ hr]
    obtain ⟨ho, ha⟩ := ih last (made + 1) _
      (fun x hx => hall x (by simp [hx])) hlast
    exact ⟨ho, by rw [ha]; omega⟩

/-- C4: classification of a non-2xx feed response: status < 500 `bail`s — the
call rejects with that error after exactly one attempt, zero retries — while
status ≥ 500 throws and a further attempt is made when the world supplies one;
after five attempts all failing with status ≥ 500 (the initial attempt plus the
whole budget of four retries) the last error propagates to the caller. -/
theorem printEvents_retry_classification (opts : ConsumerOpts) (status : Nat)
    (rest : List FeedResponse) :
    (status < 500 →
      (printEventsModel opts (.notOk status :: rest)).overall =
          some (some (.eventsStatus status)) ∧
      (printEventsModel opts (.notOk status :: rest)).attemptsMade = 1) ∧
    (¬ status < 500 → ∀ (r2 : FeedResponse) (rest2 : List FeedResponse),
      2 ≤ (printEventsModel opts (.notOk status :: r2 :: rest2)).attemptsMade) ∧
    (∀ s1 s2 s3 s4 s5 : Nat, ¬ s1 < 500 → ¬ s2 < 500 → ¬ s3 < 500 →
      ¬ s4 < 500 → ¬ s5 < 500 →
      (printEventsModel opts
          [.notOk s1, .notOk s2, .notOk s3, .notOk s4, .notOk s5]).overall =
        some (some (.eventsStatus s5)) ∧
      (printEventsModel opts
          [.notOk s1, .notOk s2, .notOk s3, .notOk s4,
            .notOk s5]).attemptsMade = 5) := by
  refine ⟨?_, ?_, ?_⟩
  · intro h
    have hb : (runAttempt opts (.notOk status) initialState).2 =
        .bailed (.eventsStatus status) := by
      rw [runAttempt_notOk_bail opts status initialState h]
    unfold printEventsModel
    rw [retryLoop_bailed opts (.notOk status) rest 4 0 initialState
      (.eventsStatus status) hb]
    exact ⟨rfl, rfl⟩
  · intro h r2 rest2
    have hr : (runAttempt opts (.notOk status) initialState).2 =
        .rejected (.eventsStatus status) := by
      rw [runAttempt_notOk_throw opts status initialState h]
    unfold printEventsModel
    show 2 ≤ (retryLoop opts (FeedResponse.notOk status :: r2 :: rest2) (3 + 1)
      initialState 0).attemptsMade
    rw [retryLoop_rejected_budget opts (.notOk status) (r2 :: rest2) 3 0
      initialState (.eventsStatus status) hr]
    simpa using retryLoop_made_succ opts r2 rest2 3 (0 + 1)
      (applyOnRetry opts.quiet (runAttempt opts (.notOk status) initialState).1)
  · intro s1 s2 s3 s4 s5 h1 h2 h3 h4 h5
    have h := retryLoop_exhausts opts [s1, s2, s3, s4] s5 0 initialState
      (by
        intro st hst
        simp only [List.mem_cons, List.not_mem_nil, or_false] at hst
        rcases hst with rfl | rfl | rfl | rfl <;> assumption)
      h5
    unfold printEventsModel
    simpa using h

/-- Witness for C4 at a concrete 404 response. -/
theorem printEvents_retry_classification_witness :
    (printEventsModel (logsOpts 0) [.notOk 404]).overall =
        some (some (.eventsStatus 404)) ∧
    (printEventsModel (logsOpts 0) [.notOk 404]).attemptsMade = 1 :=
  (printEvents_retry_classification (logsOpts 0) 404 []).1 (by decide)

/-- C2 counterexample: with `limit = 3` against a feed of five normal records,
only the first two records — not three — are forwarded to `printEvent`: the
third record makes the counter reach the limit and is dropped unforwarded; the
stream stops and the call still resolves successfully. -/
theorem limit_three_forwards_two :
    (printEventsModel (logsOpts 3)
        [.ok ([stdoutRecord 1, stdoutRecord 2, stdoutRecord 3, stdoutRecord 4,
          stdoutRecord 5].map .data)]).state.forwarded =
      [stdoutRecord 1, stdoutRecord 2] ∧
    (printEventsModel (logsOpts 3)
        [.ok ([stdoutRecord 1, stdoutRecord 2, stdoutRecord 3, stdoutRecord 4,
          stdoutRecord 5].map .data)]).state.forwarded.length ≠ 3 ∧
    (printEventsModel (logsOpts 3)
        [.ok ([stdoutRecord 1, stdoutRecord 2, stdoutRecord 3, stdoutRecord 4,
          stdoutRecord 5].map .data)]).overall = some none := by
  decide

/-- C2 (amended): for a finite limit n ≥ 1 and a feed delivering at least n
records, all normal, exactly the first n − 1 records are forwarded to
`printEvent`; the n-th record makes the counter reach the limit and stops the
stream without being forwarded, after which the call resolves successfully in
a single attempt. -/
theorem limit_semantics (opts : ConsumerOpts) (rs : List StreamRecord)
    (hn : 1 ≤ opts.limit) (hlen : opts.limit ≤ rs.length)
    (hnormal : ∀ r ∈ rs, r.event ≠ "build-complete") :
    (printEventsModel opts [.ok (rs.map .data)]).state.forwarded =
        rs.take (opts.limit - 1) ∧
    (printEventsModel opts [.ok (rs.map .data)]).overall = some none ∧
    (printEventsModel opts [.ok (rs.map .data)]).attemptsMade = 1 := by
  set L := opts.limit with hLdef
  set s0 := attemptStart opts initialState with hs0def
  have hs0res : s0.result = none := rfl
  have hs0fin : s0.finishCalled = false := rfl
  have hs0cnt : s0.counter = 0 := rfl
  have hs0fwd : s0.forwarded = [] := rfl
  have hlen1 : (rs.take (L - 1)).length = L - 1 := by
    rw [List.length_take]
    omega
  obtain ⟨a1, a2, a3, a4, a5⟩ :=
    runOccs_normal_run opts (rs.take (L - 1)) s0 hs0res
      (fun r hr => hnormal r (List.take_subset _ _ hr))
      (by
        intro k hk
        rw [hlen1] at hk
        rw [hs0cnt]
        omega)
  set t1 := runOccs opts ((rs.take (L - 1)).map Occurrence.data) s0 with ht1def
  have hdropnil : rs.drop (L - 1) ≠ [] := by
    have hld := List.length_drop (L - 1) rs
    intro hcontra
    rw [hcontra] at hld
    simp only [List.length_nil] at hld
    omega
  obtain ⟨d, rest', hd⟩ := List.exists_cons_of_ne_nil hdropnil
  have hcnt1 : t1.counter + 1 = L := by
    rw [a3, hs0cnt, hlen1]
    omega
  have hfin1 : t1.finishCalled = false := by rw [a2, hs0fin]
  obtain ⟨b1, b2, b3, b4⟩ := onData_limit opts d t1 hfin1 hcnt1
  have hocc : rs.map Occurrence.data =
      (rs.take (L - 1)).map Occurrence.data ++
        (Occurrence.data d :: rest'.map Occurrence.data) := by
    conv_lhs => rw [← List.take_append_drop (L - 1) rs]
    rw [List.map_append, hd, List.map_cons]
  have hrunres : (runOccs opts (rs.map Occurrence.data) s0).result = some none ∧
      (runOccs opts (rs.map Occurrence.data) s0).forwarded =
        rs.take (L - 1) := by
    rw [hocc, runOccs_append, ← ht1def, runOccs_cons, if_neg (by simp [a1])]
    have hstep : consumerStep opts (Occurrence.data d) t1 = onData opts d t1 :=
      rfl
    rw [hstep, runOccs_stop _ _ _ (by simp [b1])]
    exact ⟨b1, by rw [b2, a4, hs0fwd, List.nil_append]⟩
  have hra := runAttempt_ok_resolved opts (rs.map Occurrence.data) initialState
    (by rw [← hs0def]; exact hrunres.1)
  unfold printEventsModel
  rw [retryLoop_resolved opts _ [] 4 0 initialState (by rw [hra])]
  refine ⟨?_, rfl, rfl⟩
  show ((runAttempt opts (.ok (rs.map Occurrence.data)) initialState).1).forwarded =
    rs.take (L - 1)
  rw [hra, ← hs0def]
  exact hrunres.2

/-- Witness for the amended C2 at the concrete limit-3 feed of five records. -/
theorem limit_semantics_witness :
    (printEventsModel (logsOpts 3)
        [.ok ([stdoutRecord 1, stdoutRecord 2, stdoutRecord 3, stdoutRecord 4,
          stdoutRecord 5].map .data)]).overall = some none :=
  (limit_semantics (logsOpts 3)
    [stdoutRecord 1, stdoutRecord 2, stdoutRecord 3, stdoutRecord 4,
      stdoutRecord 5] (by decide) (by decide) (by decide)).2.1

/-- C3 counterexample: outside deploy mode a `"build-complete"` record is
silently dropped — the claim says it is forwarded to `onEvent`, but the
forwarded list contains only the later normal record while the stream continues
to a successful end. -/
theorem buildComplete_dropped_outside_deploy :
    (printEventsModel (logsOpts 0)
        [.ok [.data buildCompleteRecord, .data (stdoutRecord 1),
          .streamEnd]]).state.forwarded = [stdoutRecord 1] ∧
    buildCompleteRecord ∉ (printEventsModel (logsOpts 0)
        [.ok [.data buildCompleteRecord, .data (stdoutRecord 1),
          .streamEnd]]).state.forwarded ∧
    (printEventsModel (logsOpts 0)
        [.ok [.data buildCompleteRecord, .data (stdoutRecord 1),
          .streamEnd]]).overall = some none := by
  decide

/-- C3 (amended): dispatch of a record that does not trigger the limit: a
`"build-complete"` record in deploy mode settles the attempt successfully
without being forwarded, with `onOpen` invoked exactly once by then; a
`"build-complete"` record outside deploy mode is ignored — neither forwarded
nor stopping the stream; any other record is forwarded to `printEvent` with the
returned unit count added to `o`; and a whole deploy-mode run over normal
records ending in `"build-complete"` resolves successfully, forwarding exactly
the normal records, with `onOpen` invoked exactly once. -/
theorem dispatch_semantics (opts : ConsumerOpts) (r : StreamRecord)
    (s : ConsumerState) :
    (r.event = "build-complete" → opts.mode = "deploy" →
      s.finishCalled = false → s.counter + 1 ≠ opts.limit → StateInv s →
      (onData opts r s).result = some none ∧
      (onData opts r s).forwarded = s.forwarded ∧
      (onData opts r s).onOpenCount = 1) ∧
    (r.event = "build-complete" → opts.mode ≠ "deploy" →
      s.counter + 1 ≠ opts.limit →
      onData opts r s = { s with counter := s.counter + 1 }) ∧
    (r.event ≠ "build-complete" → s.counter + 1 ≠ opts.limit →
      (onData opts r s).forwarded = s.forwarded ++ [r] ∧
      (onData opts r s).o = s.o + opts.printEvent r ∧
      (onData opts r s).result = s.result) ∧
    (∀ rs : List StreamRecord, opts.mode = "deploy" → opts.limit = 0 →
      (∀ x ∈ rs, x.event ≠ "build-complete") → r.event = "build-complete" →
      (printEventsModel opts
          [.ok (rs.map .data ++ [.data r])]).overall = some none ∧
      (printEventsModel opts
          [.ok (rs.map .data ++ [.data r])]).state.forwarded = rs ∧
      (printEventsModel opts
          [.ok (rs.map .data ++ [.data r])]).state.onOpenCount = 1) := by
  refine ⟨?_, ?_, ?_, ?_⟩
  · intro hbc hmode hfin hcnt hinv
    obtain ⟨b1, b2, _, b4⟩ := onData_bc_deploy opts r s hcnt hbc hmode hfin
    refine ⟨b1, b2, ?_⟩
    have hinv' := stateInv_onData opts r hinv
    rw [hinv'.1, b4]
    rfl
  · intro hbc hmode hcnt
    exact onData_bc_other opts r s hcnt hbc hmode
  · intro hbc hcnt
    obtain ⟨f1, _, _, f4, f5, _⟩ := onData_forward opts r s hcnt hbc
    exact ⟨f4, f5, f1⟩
  · intro rs hmode hlimit hnorm hbc
    set s0 := attemptStart opts initialState with hs0def
    have hs0res : s0.result = none := rfl
    have hs0fin : s0.finishCalled = false := rfl
    have hs0cnt : s0.counter = 0 := rfl
    have hs0fwd : s0.forwarded = [] := rfl
    obtain ⟨a1, a2, a3, a4, a5⟩ := runOccs_normal_run opts rs s0 hs0res hnorm
      (by
        intro k hk
        rw [hs0cnt, hlimit]
        omega)
    set t1 := runOccs opts (rs.map Occurrence.data) s0 with ht1def
    have hcnt1 : t1.counter + 1 ≠ opts.limit := by
      rw [hlimit]
      omega
    have hfin1 : t1.finishCalled = false := by rw [a2, hs0fin]
    obtain ⟨b1, b2, _, b4⟩ := onData_bc_deploy opts r t1 hcnt1 hbc hmode hfin1
    have hrun : (runOccs opts (rs.map Occurrence.data ++ [Occurrence.data r])
          s0).result = some none ∧
        (runOccs opts (rs.map Occurrence.data ++ [Occurrence.data r])
          s0).forwarded = rs ∧
        (runOccs opts (rs.map Occurrence.data ++ [Occurrence.data r])
          s0).onOpenCalled = true := by
      rw [runOccs_append, ← ht1def, runOccs_cons, if_neg (by simp [a1])]
      have hstep : consumerStep opts (Occurrence.data r) t1 = onData opts r t1 :=
        rfl
      rw [hstep]
      have hnilrun : runOccs opts [] (onData opts r t1) = onData opts r t1 := rfl
      rw [hnilrun]
      refine ⟨b1, ?_, b4⟩
      rw [b2, a4, hs0fwd, List.nil_append]
    have hra := runAttempt_ok_resolved opts
      (rs.map Occurrence.data ++ [Occurrence.data r]) initialState
      (by rw [← hs0def]; exact hrun.1)
    have hinvrun : StateInv (runOccs opts
        (rs.map Occurrence.data ++ [Occurrence.data r]) s0) := by
      refine stateInv_runOccs opts _ ?_
      rw [hs0def]
      exact stateInv_attemptStart opts stateInv_initial
    unfold printEventsModel
    rw [retryLoop_resolved opts _ [] 4 0 initialState (by rw [hra])]
    refine ⟨rfl, ?_, ?_⟩
    · show ((runAttempt opts (.ok (rs.map Occurrence.data ++ [Occurrence.data r]))
        initialState).1).forwarded = rs
      rw [hra, ← hs0def]
      exact hrun.2.1
    · show ((runAttempt opts (.ok (rs.map Occurrence.data ++ [Occurrence.data r]))
        initialState).1).onOpenCount = 1
      rw [hra, ← hs0def]
      show (runOccs opts (rs.map Occurrence.data ++ [Occurrence.data r])
        s0).onOpenCount = 1
      rw [hinvrun.1, hrun.2.2]
      rfl

/-- Witness for the amended C3 at a concrete deploy-mode run. -/
theorem dispatch_semantics_witness :
    (printEventsModel deployOpts
        [.ok ([stdoutRecord 1].map .data ++ [.data buildCompleteRecord])]).overall
      = some none ∧
    (printEventsModel deployOpts
        [.ok ([stdoutRecord 1].map .data ++
          [.data buildCompleteRecord])]).state.forwarded = [stdoutRecord 1] ∧
    (printEventsModel deployOpts
        [.ok ([stdoutRecord 1].map .data ++
          [.data buildCompleteRecord])]).state.onOpenCount = 1 :=
  (dispatch_semantics deployOpts buildCompleteRecord initialState).2.2.2
    [stdoutRecord 1] rfl rfl (by decide) rfl

/-- C5 counterexample: in deploy mode a first attempt whose poll throws ends
the stream and rejects that attempt, but the rejection is retried like any
other retryable failure: with a second attempt available the overall call
resolves successfully after two attempts, refuting "the overall operation
fails with that error rather than being retried". -/
theorem pollError_is_retried :
    (printEventsModel deployOpts
        [.ok [.pollTick .threw], .ok [.streamEnd]]).overall = some none ∧
    (printEventsModel deployOpts
        [.ok [.pollTick .threw], .ok [.streamEnd]]).attemptsMade = 2 := by
  decide

/-- C5 (amended): the poller is only ever scheduled with the fixed 5000 ms
delay; with an active poller and an unsettled promise, a `READY` poll state
finishes the attempt successfully, while a poll error (non-ok response or
thrown fetch) ends the stream and fails the current attempt with that error;
a deploy-mode run whose poll reports `READY` resolves successfully; and a
poll-error rejection is retryable — with retries remaining and a further
response supplied, a second attempt is made — rather than failing the overall
operation directly. -/
theorem poller_semantics (s : ConsumerState) :
    (∀ (opts : ConsumerOpts) (responses : List FeedResponse),
      ∀ d ∈ (printEventsModel opts responses).state.scheduledDelays,
        d = pollDelayMs) ∧
    (s.pollerActive = true → s.finishCalled = false →
      (onPollTick (.ok "READY") s).result = some none ∧
      (∀ status, (onPollTick (.notOk status) s).result =
        some (some (.pollResponse status))) ∧
      (onPollTick .threw s).result = some (some .pollThrew)) ∧
    (∀ opts : ConsumerOpts, opts.mode = "deploy" →
      (printEventsModel opts [.ok [.pollTick (.ok "READY")]]).overall =
        some none) ∧
    (∀ (opts : ConsumerOpts) (r2 : FeedResponse) (rest : List FeedResponse),
      opts.mode = "deploy" →
      2 ≤ (printEventsModel opts
        (.ok [.pollTick .threw] :: r2 :: rest)).attemptsMade) := by
  refine ⟨?_, ?_, ?_, ?_⟩
  · intro opts responses
    exact (stateInv_model opts responses).2
  · intro hact hfin
    have hcond : ¬ ((!s.pollerActive) = true) := by simp [hact]
    refine ⟨?_, fun status => ?_, ?_⟩
    · unfold onPollTick
      rw [if_neg hcond]
      exact finish_result_of_fresh none s hfin
    · unfold onPollTick
      rw [if_neg hcond]
      exact finish_result_of_fresh (some (ConsumerErr.pollResponse status)) s hfin
    · unfold onPollTick
      rw [if_neg hcond]
      exact finish_result_of_fresh (some ConsumerErr.pollThrew) s hfin
  · intro opts hmode
    have h2 : (attemptStart opts initialState).pollerActive = true := by
      simp [attemptStart, hmode]
    have hr : (attemptStart opts initialState).result = none := rfl
    have hocc : (runOccs opts [.pollTick (.ok "READY")]
        (attemptStart opts initialState)).result = some none := by
      rw [runOccs_cons, if_neg (by simp [hr])]
      have hstep : consumerStep opts (.pollTick (.ok "READY"))
          (attemptStart opts initialState) =
          onPollTick (.ok "READY") (attemptStart opts initialState) := rfl
      rw [hstep]
      show (onPollTick (.ok "READY") (attemptStart opts initialState)).result =
        some none
      unfold onPollTick
      rw [if_neg (by simp [h2])]
      exact finish_result_of_fresh none (attemptStart opts initialState) rfl
    have hra := runAttempt_ok_resolved opts _ initialState hocc
    unfold printEventsModel
    rw [retryLoop_resolved opts _ [] 4 0 initialState (by rw [hra])]
  · intro opts r2 rest hmode
    have h2 : (attemptStart opts initialState).pollerActive = true := by
      simp [attemptStart, hmode]
    have hr : (attemptStart opts initialState).result = none := rfl
    have hocc : (runOccs opts [.pollTick .threw]
        (attemptStart opts initialState)).result = some (some .pollThrew) := by
      rw [runOccs_cons, if_neg (by simp [hr])]
      have hstep : consumerStep opts (.pollTick .threw)
          (attemptStart opts initialState) =
          onPollTick .threw (attemptStart opts initialState) := rfl
      rw [hstep]
      show (onPollTick .threw (attemptStart opts initialState)).result =
        some (some .pollThrew)
      unfold onPollTick
      rw [if_neg (by simp [h2])]
      exact finish_result_of_fresh (some ConsumerErr.pollThrew)
        (attemptStart opts initialState) rfl
    have hrej : (runAttempt opts (.ok [.pollTick .threw]) initialState).2 =
        .rejected .pollThrew := by
      rw [runAttempt_ok_rejected opts _ initialState .pollThrew hocc]
    unfold printEventsModel
    show 2 ≤ (retryLoop opts (FeedResponse.ok [.pollTick .threw] :: r2 :: rest)
      (3 + 1) initialState 0).attemptsMade
    rw [retryLoop_rejected_budget opts _ (r2 :: rest) 3 0 initialState _ hrej]
    simpa using retryLoop_made_succ opts r2 rest 3 (0 + 1)
      (applyOnRetry opts.quiet
        (runAttempt opts (.ok [.pollTick .threw]) initialState).1)

/-- Witness for the amended C5 at concrete deploy-mode inputs. -/
theorem poller_semantics_witness :
    (onPollTick (.ok "READY") (attemptStart deployOpts initialState)).result =
        some none ∧
    2 ≤ (printEventsModel deployOpts
      [.ok [.pollTick .threw], .ok [.streamEnd]]).attemptsMade :=
  ⟨((poller_semantics (attemptStart deployOpts initialState)).2.1
      (by decide) rfl).1,
   (poller_semantics initialState).2.2.2 deployOpts (.ok [.streamEnd]) [] rfl⟩

/-- C6: completion is funneled through an idempotent finish gate: a second
`finish` is a no-op, the first one sets the one-shot flag, cancels the pending
poll timer and settles the promise with its argument exactly once; the stream
delivers no occurrence after settlement; and across a whole invocation
`onOpen` is invoked at most once, whichever code paths call it. -/
theorem finish_idempotent_onOpen_once :
    (∀ (e : Option ConsumerErr) (s : ConsumerState), s.finishCalled = true →
      finish e s = s) ∧
    (∀ (e : Option ConsumerErr) (s : ConsumerState), s.finishCalled = false →
      (finish e s).finishCalled = true ∧ (finish e s).pollerActive = false ∧
      (finish e s).result = some e) ∧
    (∀ (e1 e2 : Option ConsumerErr) (s : ConsumerState),
      finish e2 (finish e1 s) = finish e1 s) ∧
    (∀ (opts : ConsumerOpts) (occs : List Occurrence) (s : ConsumerState),
      s.result.isSome = true → runOccs opts occs s = s) ∧
    (∀ (opts : ConsumerOpts) (responses : List FeedResponse),
      (printEventsModel opts responses).state.onOpenCount ≤ 1) := by
  refine ⟨finish_of_called, ?_, ?_, runOccs_stop, ?_⟩
  · intro e s h
    exact ⟨finish_finishCalled e s, finish_pollerActive_of_fresh e s h,
      finish_result_of_fresh e s h⟩
  · intro e1 e2 s
    exact finish_of_called e2 (finish e1 s) (finish_finishCalled e1 s)
  · intro opts responses
    rw [(stateInv_model opts responses).1]
    split <;> simp

/-- Witness for C6 at concrete inputs. -/
theorem finish_idempotent_witness :
    (finish none initialState).result = some none ∧
    (printEventsModel (logsOpts 0) [.ok [.streamEnd]]).state.onOpenCount ≤ 1 :=
  ⟨(finish_idempotent_onOpen_once.2.1 none initialState rfl).2.2,
   finish_idempotent_onOpen_once.2.2.2.2 (logsOpts 0) [.ok [.streamEnd]]⟩

/-- C7 counterexample: with `quiet` set, a retry boundary at which `o = 2`
output units had been emitted erases nothing and leaves `o` at 2, instead of
erasing `o + 1 = 3` lines and resetting `o` as the claim requires of every
retry. -/
theorem quiet_retry_erases_nothing :
    (printEventsModel quietDeployOpts
        [.ok [.data (stdoutRecord 1), .data (stdoutRecord 2), .pollTick .threw],
          .ok [.streamEnd]]).state.erasedHistory = [0] ∧
    (printEventsModel quietDeployOpts
        [.ok [.data (stdoutRecord 1), .data (stdoutRecord 2), .pollTick .threw],
          .ok [.streamEnd]]).state.o = 2 ∧
    (printEventsModel quietDeployOpts
        [.ok [.data (stdoutRecord 1), .data (stdoutRecord 2), .pollTick .threw],
          .ok [.streamEnd]]).state.erasedHistory ≠ [3] := by
  decide

/-- C7 (amended): at each retry boundary, when not in quiet mode, a nonzero
unit counter `o` makes the consumer erase exactly `o + 1` lines and reset `o`
to 0, while `o = 0` erases nothing; in quiet mode nothing is erased and `o`
keeps its value. -/
theorem onRetryStep_spec (quiet : Bool) (o : Nat) :
    (quiet = false → o ≠ 0 → onRetryStep quiet o = (o + 1, 0)) ∧
    (quiet = false → o = 0 → onRetryStep quiet o = (0, 0)) ∧
    (quiet = true → onRetryStep quiet o = (0, o)) := by
  unfold onRetryStep
  refine ⟨fun hq ho => ?_, fun hq ho => ?_, fun hq => ?_⟩
  · rw [if_pos (by simp [hq, ho])]
  · subst ho
    rw [if_neg (by simp)]
  · rw [if_neg (by simp [hq])]

/-- Witness for the amended C7 at concrete counters. -/
theorem onRetryStep_spec_witness :
    onRetryStep false 2 = (3, 0) ∧ onRetryStep true 2 = (0, 2) :=
  ⟨(onRetryStep_spec false 2).1 rfl (by decide),
   (onRetryStep_spec true 2).2.2 rfl⟩

end VercelSpec
